import Mathlib

/-!
Shallow embedding of the etcd-membership core of cluster-api-k3s
(`pkg/k3s/workload_cluster_etcd.go`): membership reconciliation, the
annotation-driven node decommission handshake, and leadership forwarding.

External collaborators (node lister, etcd client factory, patch helper) are
modelled by an `Env` of success oracles; the mutable world (the etcd member
list and the control-plane Node objects) is threaded explicitly as `St`.
Every outgoing call to a collaborator is recorded in an `Effect` trace so
that "issues no etcd calls" and "performs no patch" are provable statements.
-/

namespace ClusterApiK3s

/-- An etcd member: its numeric id and its advertised name.  The name may be
the empty string while the member is mid-join. -/
structure Member where
  id : Nat
  name : String
deriving DecidableEq, Repr

/-- A control-plane Node: its unique name and its annotation map.  `none`
models a Go nil map; `some l` models an allocated map as an association
list. -/
structure Node where
  name : String
  annotations : Option (List (String × String))
deriving DecidableEq, Repr

/-- A Machine, reduced to what the core reads: the optional Node reference
(`Status.NodeRef.Name`). -/
structure Machine where
  nodeRef : Option String
deriving DecidableEq, Repr

/-- The error values the modelled operations can return. -/
inductive Err where
  | controlPlaneMinNodes
  | nodeListFailed
  | clientAcqFailed
  | membersFailed
  | memberRemoveFailed (id : Nat)
  | nodeNotFound (name : String)
  | patchHelperFailed
  | patchFailed
  | candidateNil
  | candidateNoNodeRef
  | memberNotFound (name : String)
  | moveLeaderFailed
deriving DecidableEq, Repr

/-- Modelled from the spec: the quorum-floor error `ErrControlPlaneMinNodes`
is declared outside the provided sources; section 7 of the spec names it
QuorumFloorViolation. -/
def ErrControlPlaneMinNodes : Err := Err.controlPlaneMinNodes

/-- An outgoing call to a collaborator, recorded in the trace.  A
`removeMember` entry records the id and the derived name of the member the
RemoveMember call targets. -/
inductive Effect where
  | clientAcq (nodeNames : List String)
  | listMembers
  | removeMember (id : Nat) (name : String)
  | moveLeader (id : Nat)
  | patchNode (name : String)
deriving DecidableEq, Repr

/-- The mutable world state threaded through the operations. -/
structure St where
  members : List Member
  nodes : List Node
deriving DecidableEq, Repr

/-- Success oracles for the external collaborators: whether the
control-plane Node listing succeeds, whether client acquisition for a given
candidate node-name list succeeds (first-available and leader-bound modes),
whether a Members listing through such a client succeeds, whether
RemoveMember / MoveLeader / patch calls succeed, the leader id the connected
client reports, and whether building the patch helper succeeds. -/
structure Env where
  nodeListOk : Bool
  firstAvailOk : List String → Bool
  forLeaderOk : List String → Bool
  membersOk : List String → Bool
  removeOk : Nat → Bool
  moveLeaderOk : Nat → Bool
  leaderID : Nat
  patchHelperOk : Bool
  patchOk : Bool

/-- Result of a Go call that may panic. -/
inductive GoResult (α : Type) where
  | ok (val : α)
  | panicked
deriving DecidableEq, Repr

/-- The annotation key `etcd.k3s.cattle.io/remove` (the source's
EtcdRemoveAnnotation constant). -/
def etcdRemoveAnn : String := "etcd.k3s.cattle.io/remove"

/-- The annotation key `etcd.k3s.cattle.io/removed-node-name` (the source's
EtcdRemovedNodeAnnotation constant). -/
def etcdRemovedNodeAnn : String := "etcd.k3s.cattle.io/removed-node-name"

/-- Go map lookup on an allocated annotation map. -/
def annGetList : List (String × String) → String → Option String
  | [], _ => none
  | p :: rest, k => if p.1 = k then some p.2 else annGetList rest k

/-- Go map lookup on a possibly-nil annotation map: reading a nil map yields
absence. -/
def annGet : Option (List (String × String)) → String → Option String
  | none, _ => none
  | some l, k => annGetList l k

/-- Go map assignment on an allocated map: replace the binding for the key
if present, otherwise add it. -/
def annSet : List (String × String) → String → String → List (String × String)
  | [], k, v => [(k, v)]
  | p :: rest, k, v => if p.1 = k then (k, v) :: rest else p :: annSet rest k v

/-- Modelled from the spec: `NodeNameFromMember` from pkg/etcd/util is not
among the provided sources.  Per section 3 of the spec a member's name is
derived from its advertised identity (possibly empty mid-join), so the
derived node name is the member's name. -/
def NodeNameFromMember (m : Member) : String := m.name

/-- Modelled from the spec: `MemberForName` from pkg/etcd/util is not among
the provided sources.  Per section 4.2 step 4 and section 4.4 step 3 it
locates the member whose derived name equals the target, or reports
absence. -/
def MemberForName : List Member → String → Option Member
  | [], _ => none
  | m :: rest, name =>
    if NodeNameFromMember m = name then some m else MemberForName rest name

/-- The `remainingNodes` loop of removeMemberForNonExistingNode: the names
of the listed control-plane nodes other than the one being removed, in
order. -/
def remainingNodeNames : List Node → String → List String
  | [], _ => []
  | n :: rest, name =>
    if n.name = name then remainingNodeNames rest name
    else n.name :: remainingNodeNames rest name

/-- etcd's RemoveMember by id: drops the member bearing the id. -/
def removeMemberById : List Member → Nat → List Member
  | [], _ => []
  | m :: rest, i =>
    if m.id = i then removeMemberById rest i else m :: removeMemberById rest i

/-- Model of Workload.removeMemberForNonExistingNode: quorum-checked direct
removal of the etcd member whose node object no longer exists. -/
def removeMemberForNonExistingNode (env : Env) (st : St) (name : String) :
    Option Err × St × List Effect :=
  if env.nodeListOk = false then (some Err.nodeListFailed, st, [])
  else if st.nodes.length < 2 then (some ErrControlPlaneMinNodes, st, [])
  else if env.firstAvailOk (remainingNodeNames st.nodes name) = false then
    (some Err.clientAcqFailed, st,
      [Effect.clientAcq (remainingNodeNames st.nodes name)])
  else if env.membersOk (remainingNodeNames st.nodes name) = false then
    (some Err.membersFailed, st,
      [Effect.clientAcq (remainingNodeNames st.nodes name), Effect.listMembers])
  else
    match MemberForName st.members name with
    | none =>
      (none, st,
        [Effect.clientAcq (remainingNodeNames st.nodes name), Effect.listMembers])
    | some member =>
      if env.removeOk member.id then
        (none, { st with members := removeMemberById st.members member.id },
          [Effect.clientAcq (remainingNodeNames st.nodes name), Effect.listMembers,
           Effect.removeMember member.id member.name])
      else
        (some (Err.memberRemoveFailed member.id), st,
          [Effect.clientAcq (remainingNodeNames st.nodes name), Effect.listMembers,
           Effect.removeMember member.id member.name])

/-- The member loop of Workload.reconcileEtcdMember: for each member of the
snapshot listed at entry, skip it when its derived name is empty or matches
a node name; otherwise record its name and attempt quorum-checked removal,
collecting removal errors. -/
def reconcileMembersLoop (env : Env) (nodeNames : List String) :
    List Member → St → (List String × List Err) × St × List Effect
  | [], st => (([], []), st, [])
  | member :: rest, st =>
    if NodeNameFromMember member = "" then
      reconcileMembersLoop env nodeNames rest st
    else if NodeNameFromMember member ∈ nodeNames then
      reconcileMembersLoop env nodeNames rest st
    else
      let res := removeMemberForNonExistingNode env st (NodeNameFromMember member)
      let tail := reconcileMembersLoop env nodeNames rest res.2.1
      ((NodeNameFromMember member :: tail.1.1,
        match res.1 with
        | some e => e :: tail.1.2
        | none => tail.1.2),
       tail.2.1, res.2.2 ++ tail.2.2)

/-- Model of Workload.reconcileEtcdMember: acquire a client for the single
node, list members, and remove members with no corresponding node, best
effort.  Client-acquisition or listing failure is skipped silently: no
names, no errors. -/
def reconcileEtcdMember (env : Env) (st : St) (nodeNames : List String)
    (nodeName : String) : (List String × List Err) × St × List Effect :=
  if env.firstAvailOk [nodeName] = false then
    (([], []), st, [Effect.clientAcq [nodeName]])
  else if env.membersOk [nodeName] = false then
    (([], []), st, [Effect.clientAcq [nodeName], Effect.listMembers])
  else
    let inner := reconcileMembersLoop env nodeNames st.members st
    (inner.1, inner.2.1,
      Effect.clientAcq [nodeName] :: Effect.listMembers :: inner.2.2)

/-- The node loop of Workload.ReconcileEtcdMembers, processing node names in
input order and threading the world state. -/
def reconcileNodesLoop (env : Env) (allNames : List String) :
    List String → St → (List String × List Err) × St × List Effect
  | [], st => (([], []), st, [])
  | n :: rest, st =>
    let head := reconcileEtcdMember env st allNames n
    let tail := reconcileNodesLoop env allNames rest head.2.1
    ((head.1.1 ++ tail.1.1, head.1.2 ++ tail.1.2), tail.2.1, head.2.2 ++ tail.2.2)

/-- kerrors.NewAggregate: nil for an empty error list, otherwise a single
composite carrying every individual cause. -/
def newAggregate (errs : List Err) : Option (List Err) :=
  if errs.isEmpty then none else some errs

/-- Model of Workload.ReconcileEtcdMembers: iterate over all node names,
collect removed member names and per-member errors, and aggregate the
errors into one composite (or none). -/
def ReconcileEtcdMembers (env : Env) (st : St) (nodeNames : List String) :
    (List String × Option (List Err)) × St × List Effect :=
  let r := reconcileNodesLoop env nodeNames nodeNames st
  ((r.1.1, newAggregate r.1.2), r.2.1, r.2.2)

/-- The Go zero value of corev1.Node: empty name, nil annotation map. -/
def zeroNode : Node := { name := "", annotations := none }

/-- The `var removingNode; for ... if n.Name == name` loop of
removeMemberForNode: the last matching node wins, otherwise the zero
Node. -/
def findRemovingNode (nodes : List Node) (name : String) : Node :=
  nodes.foldl (fun acc n => if n.name = name then n else acc) zeroNode

/-- A successful patch replaces the stored Node object bearing the patched
node's name. -/
def updateNode (nodes : List Node) (node : Node) : List Node :=
  nodes.map (fun n => if n.name = node.name then node else n)

/-- The node as removeMemberForNode patches it: its allocated annotation map
with the remove-request key set to "true". -/
def markRemoveRequested (node : Node) (anns : List (String × String)) : Node :=
  { node with annotations := some (annSet anns etcdRemoveAnn "true") }

/-- Model of Workload.removeMemberForNode: the annotation-driven
decommission request.  Note the source writes
`annotations[EtcdRemoveAnnotation] = "true"` on the map returned by
GetAnnotations, which is a nil map when the Node carries no annotations;
assignment to a nil map panics in Go, and the model makes that explicit. -/
def removeMemberForNode (env : Env) (st : St) (name : String) :
    GoResult ((Bool × Option Err) × St × List Effect) :=
  if env.nodeListOk = false then
    GoResult.ok ((false, some Err.nodeListFailed), st, [])
  else if st.nodes.length < 2 then
    GoResult.ok ((false, some ErrControlPlaneMinNodes), st, [])
  else if (findRemovingNode st.nodes name).name ≠ name then
    GoResult.ok ((false, some (Err.nodeNotFound name)), st, [])
  else if (annGet (findRemovingNode st.nodes name).annotations
      etcdRemovedNodeAnn).isSome then
    GoResult.ok ((true, none), st, [])
  else if env.patchHelperOk = false then
    GoResult.ok ((false, some Err.patchHelperFailed), st, [])
  else
    match (findRemovingNode st.nodes name).annotations with
    | none => GoResult.panicked
    | some anns =>
      let node' := { findRemovingNode st.nodes name with
        annotations := some (annSet anns etcdRemoveAnn "true") }
      if env.patchOk then
        GoResult.ok ((false, none), { st with nodes := updateNode st.nodes node' },
          [Effect.patchNode node'.name])
      else
        GoResult.ok ((false, some Err.patchFailed), st,
          [Effect.patchNode node'.name])

/-- Model of Workload.RemoveEtcdMemberForMachine: a nil machine (modelled as
`none`) or a machine without a Node reference is a vacuous success;
otherwise delegate to removeMemberForNode on the referenced node name. -/
def RemoveEtcdMemberForMachine (env : Env) (st : St) (machine : Option Machine) :
    GoResult ((Bool × Option Err) × St × List Effect) :=
  match machine with
  | none => GoResult.ok ((true, none), st, [])
  | some m =>
    match m.nodeRef with
    | none => GoResult.ok ((true, none), st, [])
    | some nodeName => removeMemberForNode env st nodeName

/-- Model of Workload.ForwardEtcdLeadership: move etcd leadership to the
candidate before the outgoing machine is deleted, a no-op when the outgoing
machine is not the current leader. -/
def ForwardEtcdLeadership (env : Env) (st : St)
    (machine leaderCandidate : Option Machine) : Option Err × St × List Effect :=
  match machine with
  | none => (none, st, [])
  | some m =>
    match m.nodeRef with
    | none => (none, st, [])
    | some machineNodeName =>
      match leaderCandidate with
      | none => (some Err.candidateNil, st, [])
      | some cand =>
        match cand.nodeRef with
        | none => (some Err.candidateNoNodeRef, st, [])
        | some candNodeName =>
          if env.nodeListOk = false then (some Err.nodeListFailed, st, [])
          else if env.forLeaderOk (st.nodes.map (fun n => n.name)) = false then
            (some Err.clientAcqFailed, st,
              [Effect.clientAcq (st.nodes.map (fun n => n.name))])
          else if env.membersOk (st.nodes.map (fun n => n.name)) = false then
            (some Err.membersFailed, st,
              [Effect.clientAcq (st.nodes.map (fun n => n.name)),
               Effect.listMembers])
          else
            match MemberForName st.members machineNodeName with
            | none =>
              (none, st,
                [Effect.clientAcq (st.nodes.map (fun n => n.name)),
                 Effect.listMembers])
            | some currentMember =>
              if currentMember.id ≠ env.leaderID then
                (none, st,
                  [Effect.clientAcq (st.nodes.map (fun n => n.name)),
                   Effect.listMembers])
              else
                match MemberForName st.members candNodeName with
                | none =>
                  (some (Err.memberNotFound candNodeName), st,
                    [Effect.clientAcq (st.nodes.map (fun n => n.name)),
                     Effect.listMembers])
                | some nextLeader =>
                  if env.moveLeaderOk nextLeader.id then
                    (none, st,
                      [Effect.clientAcq (st.nodes.map (fun n => n.name)),
                       Effect.listMembers, Effect.moveLeader nextLeader.id])
                  else
                    (some Err.moveLeaderFailed, st,
                      [Effect.clientAcq (st.nodes.map (fun n => n.name)),
                       Effect.listMembers, Effect.moveLeader nextLeader.id])

/-! Concrete fixtures used by the concrete-input theorems and witnesses. -/

/-- An environment in which every collaborator call succeeds. -/
def envAllOk : Env :=
  { nodeListOk := true
    firstAvailOk := fun _ => true
    forLeaderOk := fun _ => true
    membersOk := fun _ => true
    removeOk := fun _ => true
    moveLeaderOk := fun _ => true
    leaderID := 1
    patchHelperOk := true
    patchOk := true }

/-- Like `envAllOk`, except every RemoveMember call fails. -/
def envRemoveFails : Env := { envAllOk with removeOk := fun _ => false }

/-- A control-plane node carrying a Go nil annotation map. -/
def nodeNilAnn : Node := { name := "n1", annotations := none }

/-- A second control-plane node, keeping the listed set at the quorum
floor. -/
def nodeN2 : Node := { name := "n2", annotations := some [] }

/-- State for the nil-annotation-map panic input. -/
def stNilAnn : St := { members := [], nodes := [nodeNilAnn, nodeN2] }

/-- A decommission target with a nil annotation map, for the C3
counterexample. -/
def nodeTargetNil : Node := { name := "target", annotations := none }

/-- A peer node carrying an unrelated annotation. -/
def nodePeer : Node := { name := "peer", annotations := some [("k", "v")] }

/-- State for the C3 counterexample. -/
def stTargetNil : St := { members := [], nodes := [nodeTargetNil, nodePeer] }

/-- A machine with no Node reference. -/
def machineNoRef : Machine := { nodeRef := none }

/-- Nodes `a` and `b` with allocated, empty annotation maps. -/
def nodeA : Node := { name := "a", annotations := some [] }

/-- See `nodeA`. -/
def nodeB : Node := { name := "b", annotations := some [] }

/-- Members `a`, `b` and the orphaned member `c` (no node named `c`). -/
def stABC : St :=
  { members := [⟨1, "a"⟩, ⟨2, "b"⟩, ⟨3, "c"⟩], nodes := [nodeA, nodeB] }

/-- `stABC` after the orphaned member `c` has been removed. -/
def stAB : St := { members := [⟨1, "a"⟩, ⟨2, "b"⟩], nodes := [nodeA, nodeB] }

/-- Members including one still mid-join (empty derived name) and the
orphaned member `c`. -/
def stC6 : St :=
  { members := [⟨7, ""⟩, ⟨1, "a"⟩, ⟨3, "c"⟩], nodes := [nodeA, nodeB] }

/-- Like `envAllOk`, except client acquisition restricted to node `x`
fails. -/
def envXFails : Env :=
  { envAllOk with firstAvailOk := fun l => if l = ["x"] then false else true }

/-- A node whose decommission the on-node agent has already acknowledged. -/
def nodeRemoved : Node :=
  { name := "done", annotations := some [(etcdRemovedNodeAnn, "done")] }

/-- A node with only an unrelated annotation. -/
def nodeFresh : Node := { name := "fresh", annotations := some [("k", "v")] }

/-- State for the decommission-handshake witness. -/
def stC3w : St := { members := [], nodes := [nodeRemoved, nodeFresh] }

/-- A single remaining control-plane node: below the quorum floor. -/
def stOneNode : St := { members := [⟨1, "a"⟩], nodes := [nodeA] }

/-- A different single-node state, also below the quorum floor. -/
def stOneB : St := { members := [⟨2, "b"⟩], nodes := [nodeB] }

/-! Helper lemmas. -/

/-- A member located by `MemberForName` bears the requested name. -/
theorem MemberForName_name : ∀ (l : List Member) (name : String) (m : Member),
    MemberForName l name = some m → m.name = name := by
  intro l name m h
  induction l with
  | nil => simp [MemberForName] at h
  | cons x rest ih =>
    rw [MemberForName] at h
    split at h
    next hx => injection h with h; subst h; exact hx
    next hx => exact ih h

/-- `annSet` stores the written binding. -/
theorem annGetList_annSet_same (l : List (String × String)) (k v : String) :
    annGetList (annSet l k v) k = some v := by
  induction l with
  | nil => simp [annSet, annGetList]
  | cons p rest ih =>
    by_cases hp : p.1 = k
    · simp [annSet, hp, annGetList]
    · simp [annSet, hp, annGetList, ih]

/-- `annSet` leaves every other key's binding unchanged. -/
theorem annGetList_annSet_other (l : List (String × String)) (k v k' : String)
    (h : k' ≠ k) : annGetList (annSet l k v) k' = annGetList l k' := by
  induction l with
  | nil => simp [annSet, annGetList, Ne.symm h]
  | cons p rest ih =>
    obtain ⟨a, b⟩ := p
    by_cases hp : a = k
    · subst hp
      simp [annSet, annGetList, Ne.symm h]
    · simp [annSet, hp, annGetList, ih]

/-- Patching a node never changes how many nodes are listed. -/
theorem updateNode_length (nodes : List Node) (node : Node) :
    (updateNode nodes node).length = nodes.length := by
  simp [updateNode]

/-- Direct member removal never touches the control-plane Node objects. -/
theorem removeMemberForNonExistingNode_nodes (env : Env) (st : St) (name : String) :
    (removeMemberForNonExistingNode env st name).2.1.nodes = st.nodes := by
  unfold removeMemberForNonExistingNode
  split
  · rfl
  split
  · rfl
  split
  · rfl
  split
  · rfl
  split
  · rfl
  split <;> rfl

/-- Every normal return of the decommission request leaves the number of
control-plane Node objects unchanged. -/
theorem removeMemberForNode_nodes_length (env : Env) (st : St) (name : String)
    (r : (Bool × Option Err) × St × List Effect)
    (h : removeMemberForNode env st name = GoResult.ok r) :
    r.2.1.nodes.length = st.nodes.length := by
  unfold removeMemberForNode at h
  split at h
  · injection h with h; subst h; rfl
  split at h
  · injection h with h; subst h; rfl
  split at h
  · injection h with h; subst h; rfl
  split at h
  · injection h with h; subst h; rfl
  split at h
  · injection h with h; subst h; rfl
  split at h
  · cases h
  next anns heq =>
    split at h
    · injection h with h; subst h
      exact updateNode_length st.nodes _
    · injection h with h; subst h; rfl

/-- Any RemoveMember call issued by direct member removal targets a member
bearing the requested name. -/
theorem removeMemberForNonExistingNode_effect_name (env : Env) (st : St)
    (name : String) (i : Nat) (n : String)
    (h : Effect.removeMember i n ∈ (removeMemberForNonExistingNode env st name).2.2) :
    n = name := by
  unfold removeMemberForNonExistingNode at h
  split at h
  · simp at h
  split at h
  · simp at h
  split at h
  · simp at h
  split at h
  · simp at h
  split at h
  next hm => simp at h
  next member hm =>
    have hname := MemberForName_name st.members name member hm
    split at h <;>
    · simp at h
      exact h.2.trans hname

/-- In the member loop, no empty derived name is ever recorded as removed
and no RemoveMember call ever targets a member with an empty name. -/
theorem reconcileMembersLoop_no_empty (env : Env) (nodeNames : List String) :
    ∀ (ms : List Member) (st : St),
      ("" ∉ (reconcileMembersLoop env nodeNames ms st).1.1)
      ∧ (∀ i n, Effect.removeMember i n ∈ (reconcileMembersLoop env nodeNames ms st).2.2 →
          n ≠ "") := by
  intro ms
  induction ms with
  | nil => intro st; simp [reconcileMembersLoop]
  | cons member rest ih =>
    intro st
    rw [reconcileMembersLoop]
    split
    · exact ih st
    · split
      · exact ih st
      · rename_i hne hmem
        dsimp only
        constructor
        · intro hcon
          rcases List.mem_cons.mp hcon with hc | hc
          · exact hne hc.symm
          · exact (ih _).1 hc
        · intro i n hn
          rcases List.mem_append.mp hn with hc | hc
          · intro hn0
            subst hn0
            exact hne (removeMemberForNonExistingNode_effect_name env st
              (NodeNameFromMember member) i "" hc).symm
          · exact (ih _).2 i n hc

/-- Per-node reconciliation never reports an empty name as removed and never
issues a RemoveMember call against a member with an empty name. -/
theorem reconcileEtcdMember_no_empty (env : Env) (st : St) (nodeNames : List String)
    (nodeName : String) :
    ("" ∉ (reconcileEtcdMember env st nodeNames nodeName).1.1)
    ∧ (∀ i n, Effect.removeMember i n ∈ (reconcileEtcdMember env st nodeNames nodeName).2.2 →
        n ≠ "") := by
  unfold reconcileEtcdMember
  split
  · simp
  · split
    · simp
    · dsimp only
      refine ⟨(reconcileMembersLoop_no_empty env nodeNames st.members st).1, ?_⟩
      intro i n hn
      simp only [List.mem_cons] at hn
      rcases hn with hn | hn | hn
      · simp at hn
      · simp at hn
      · exact (reconcileMembersLoop_no_empty env nodeNames st.members st).2 i n hn

/-- The node loop inherits the empty-name protection. -/
theorem reconcileNodesLoop_no_empty (env : Env) (allNames : List String) :
    ∀ (ns : List String) (st : St),
      ("" ∉ (reconcileNodesLoop env allNames ns st).1.1)
      ∧ (∀ i n, Effect.removeMember i n ∈ (reconcileNodesLoop env allNames ns st).2.2 →
          n ≠ "") := by
  intro ns
  induction ns with
  | nil => intro st; simp [reconcileNodesLoop]
  | cons a rest ih =>
    intro st
    rw [reconcileNodesLoop]
    dsimp only
    constructor
    · intro hcon
      rcases List.mem_append.mp hcon with hc | hc
      · exact (reconcileEtcdMember_no_empty env st allNames a).1 hc
      · exact (ih _).1 hc
    · intro i n hn
      rcases List.mem_append.mp hn with hc | hc
      · exact (reconcileEtcdMember_no_empty env st allNames a).2 i n hc
      · exact (ih _).2 i n hc

/-! Claim theorems. -/

/-- C1: for both etcd-membership removal operations initiated by this core
(direct removal via removeMemberForNonExistingNode and the decommission
request via removeMemberForNode), whenever the listed live control-plane
Node set has fewer than 2 Nodes the operation returns the quorum-floor
error `ErrControlPlaneMinNodes`, leaves the state untouched and issues no
collaborator call; moreover neither operation ever changes the number of
live control-plane Nodes, so that number never drops below 2 as a result of
either operation. -/
theorem C1_quorum_floor (env : Env) (st : St) (name : String) :
    (env.nodeListOk = true → st.nodes.length < 2 →
      removeMemberForNonExistingNode env st name =
        (some ErrControlPlaneMinNodes, st, [])
      ∧ removeMemberForNode env st name =
          GoResult.ok ((false, some ErrControlPlaneMinNodes), st, []))
    ∧ (removeMemberForNonExistingNode env st name).2.1.nodes = st.nodes
    ∧ (∀ r, removeMemberForNode env st name = GoResult.ok r →
        r.2.1.nodes.length = st.nodes.length) := by
  refine ⟨fun hlist hlen => ⟨?_, ?_⟩,
    removeMemberForNonExistingNode_nodes env st name,
    fun r hr => removeMemberForNode_nodes_length env st name r hr⟩
  · unfold removeMemberForNonExistingNode
    simp [hlist, hlen]
  · unfold removeMemberForNode
    simp [hlist, hlen]

/-- Witness for C1 at a one-node control plane. -/
theorem C1_quorum_floor_witness :
    removeMemberForNonExistingNode envAllOk stOneB "c" =
      (some ErrControlPlaneMinNodes, stOneB, [])
    ∧ removeMemberForNode envAllOk stOneB "b" =
        GoResult.ok ((false, some ErrControlPlaneMinNodes), stOneB, []) :=
  ⟨((C1_quorum_floor envAllOk stOneB "c").1 rfl (by decide)).1,
   ((C1_quorum_floor envAllOk stOneB "b").1 rfl (by decide)).2⟩

/-- C2: the claim says every operation is total and never panics, even for
a Node whose annotation map is absent.  The code is wrong: for a Node with
a Go nil annotation map (and no removed-acknowledgment annotation),
removeMemberForNode executes `annotations[EtcdRemoveAnnotation] = "true"`
on the nil map returned by GetAnnotations, which panics.  This theorem
evaluates the model at that failing input. -/
theorem C2_nil_annotation_map_panics :
    removeMemberForNode envAllOk stNilAnn "n1" = GoResult.panicked := by decide

/-- C3 counterexample: as stated the claim fails on the code.  With two
listed control-plane nodes and the target node present but carrying a nil
annotation map, the call does not set the remove annotation and return
`(false, nil)`: it panics. -/
theorem C3_counterexample :
    removeMemberForNode envAllOk stTargetNil "target" = GoResult.panicked := by
  decide

/-- C3 (amended): removeMemberForNode, called with a control-plane node
list of at least 2 Nodes containing a Node with the target name, implements
the decommission handshake: if that Node's annotations already contain the
removed-acknowledgment key it returns `(true, nil)` and issues no patch;
otherwise, provided the Node's annotation map is allocated (non-nil, the
amendment the nil-map panic forces), it sets the remove-request key to
"true", patches the Node leaving every unrelated annotation unchanged, and
returns `(false, nil)` when the patch succeeds. -/
theorem C3_decommission_handshake (env : Env) (st : St) (name : String)
    (hlist : env.nodeListOk = true) (hlen : 2 ≤ st.nodes.length)
    (hfound : (findRemovingNode st.nodes name).name = name) :
    ((annGet (findRemovingNode st.nodes name).annotations etcdRemovedNodeAnn).isSome = true →
      removeMemberForNode env st name = GoResult.ok ((true, none), st, []))
    ∧ (∀ anns, (findRemovingNode st.nodes name).annotations = some anns →
        annGetList anns etcdRemovedNodeAnn = none →
        env.patchHelperOk = true → env.patchOk = true →
        removeMemberForNode env st name =
          GoResult.ok ((false, none),
            { st with nodes := updateNode st.nodes (markRemoveRequested (findRemovingNode st.nodes name) anns) },
            [Effect.patchNode name]))
    ∧ (∀ anns k, k ≠ etcdRemoveAnn →
        annGetList (annSet anns etcdRemoveAnn "true") k = annGetList anns k)
    ∧ (∀ anns, annGetList (annSet anns etcdRemoveAnn "true") etcdRemoveAnn = some "true") := by
  have hlt : ¬ st.nodes.length < 2 := by omega
  refine ⟨?_, ?_,
    fun anns k hk => annGetList_annSet_other anns etcdRemoveAnn "true" k hk,
    fun anns => annGetList_annSet_same anns etcdRemoveAnn "true"⟩
  · intro hrem
    unfold removeMemberForNode
    simp [hlist, hlt, hfound, hrem]
  · intro anns hanns hnone hph hpatch
    unfold removeMemberForNode
    rw [hanns]
    simp [hlist, hlt, hfound, annGet, hnone, hph, hpatch, markRemoveRequested]

/-- Witness for C3 exercising both handshake branches. -/
theorem C3_witness :
    removeMemberForNode envAllOk stC3w "done" = GoResult.ok ((true, none), stC3w, [])
    ∧ removeMemberForNode envAllOk stC3w "fresh" =
        GoResult.ok ((false, none),
          { stC3w with nodes := updateNode stC3w.nodes (markRemoveRequested (findRemovingNode stC3w.nodes "fresh") [("k", "v")]) },
          [Effect.patchNode "fresh"]) :=
  ⟨(C3_decommission_handshake envAllOk stC3w "done" rfl (by decide) (by decide)).1
      (by decide),
   (C3_decommission_handshake envAllOk stC3w "fresh" rfl (by decide) (by decide)).2.1
      [("k", "v")] (by decide) (by decide) rfl rfl⟩

/-- C4 counterexample: as stated ("for every outgoing machine") the claim
fails on the code: an outgoing machine with no Node reference makes
ForwardEtcdLeadership return nil — not an error — before the candidate is
even examined, still issuing no etcd call. -/
theorem C4_counterexample :
    ForwardEtcdLeadership envAllOk stAB (some machineNoRef) none =
      (none, stAB, []) := by decide

/-- C4 (amended): for every outgoing machine that has a Node reference,
ForwardEtcdLeadership called with a nil candidate returns the
candidate-nil error and issues no etcd call at all. -/
theorem C4_candidate_nil (env : Env) (st : St) (m : Machine) (ref : String)
    (h : m.nodeRef = some ref) :
    ForwardEtcdLeadership env st (some m) none = (some Err.candidateNil, st, []) := by
  unfold ForwardEtcdLeadership
  dsimp only
  rw [h]

/-- Witness for C4. -/
theorem C4_witness :
    ForwardEtcdLeadership envAllOk stAB (some { nodeRef := some "b" }) none =
      (some Err.candidateNil, stAB, []) :=
  C4_candidate_nil envAllOk stAB { nodeRef := some "b" } "b" rfl

/-- C5: when the listed control-plane node set has fewer than 2 Nodes,
removeMemberForNode returns the quorum-floor error `ErrControlPlaneMinNodes`
and performs no Node patch: the state, and with it every Node's annotation
state, is unchanged, and the trace is empty. -/
theorem C5_quorum_floor_no_patch (env : Env) (st : St) (name : String)
    (hlist : env.nodeListOk = true) (hlen : st.nodes.length < 2) :
    removeMemberForNode env st name =
      GoResult.ok ((false, some ErrControlPlaneMinNodes), st, []) := by
  unfold removeMemberForNode
  simp [hlist, hlen]

/-- Witness for C5 at a one-node control plane. -/
theorem C5_witness :
    removeMemberForNode envAllOk stOneNode "a" =
      GoResult.ok ((false, some ErrControlPlaneMinNodes), stOneNode, []) :=
  C5_quorum_floor_no_patch envAllOk stOneNode "a" rfl (by decide)

/-- C6: a member whose derived name is the empty string is never a removal
candidate in ReconcileEtcdMembers: its name never appears in the returned
removed-member list, no RemoveMember call is ever issued against a member
with an empty derived name, and the member loop skips such a member before
it is ever matched against the node-name set. -/
theorem C6_empty_name_never_removed (env : Env) (st : St) (nodeNames : List String) :
    ("" ∉ (ReconcileEtcdMembers env st nodeNames).1.1)
    ∧ (∀ i n, Effect.removeMember i n ∈ (ReconcileEtcdMembers env st nodeNames).2.2 →
        n ≠ "")
    ∧ (∀ (i : Nat) (rest : List Member) (st' : St),
        reconcileMembersLoop env nodeNames (⟨i, ""⟩ :: rest) st' =
          reconcileMembersLoop env nodeNames rest st') := by
  refine ⟨?_, ?_, ?_⟩
  · exact (reconcileNodesLoop_no_empty env nodeNames nodeNames st).1
  · exact (reconcileNodesLoop_no_empty env nodeNames nodeNames st).2
  · intro i rest st'
    rw [reconcileMembersLoop]
    simp [NodeNameFromMember]

/-- Witness for C6: with a mid-join member (empty name) present alongside
the orphaned member `c`, no empty name is reported and no RemoveMember
targets the mid-join member. -/
theorem C6_witness :
    ("" ∉ (ReconcileEtcdMembers envAllOk stC6 ["a", "b"]).1.1)
    ∧ (Effect.removeMember 7 "" ∈ (ReconcileEtcdMembers envAllOk stC6 ["a", "b"]).2.2 →
        False) :=
  ⟨(C6_empty_name_never_removed envAllOk stC6 ["a", "b"]).1,
   fun h => (C6_empty_name_never_removed envAllOk stC6 ["a", "b"]).2.1 7 "" h rfl⟩

/-- C7: removeMemberForNonExistingNode is idempotent — when the member
listing no longer contains a member with the target derived name it returns
nil without issuing RemoveMember — and consequently, on node set
`{a, b}` with members `{a, b, c}`, Reconcile removes exactly `c`, returns
`["c"]`, and a second Reconcile run from the resulting state returns no
error, no removed names and attempts no re-removal. -/
theorem C7_idempotent_removal :
    (∀ (env : Env) (st : St) (name : String),
      env.nodeListOk = true → ¬ st.nodes.length < 2 →
      env.firstAvailOk (remainingNodeNames st.nodes name) = true →
      env.membersOk (remainingNodeNames st.nodes name) = true →
      MemberForName st.members name = none →
      removeMemberForNonExistingNode env st name =
        (none, st,
          [Effect.clientAcq (remainingNodeNames st.nodes name), Effect.listMembers]))
    ∧ (ReconcileEtcdMembers envAllOk stABC ["a", "b"]).1 = (["c"], none)
    ∧ (ReconcileEtcdMembers envAllOk stABC ["a", "b"]).2.1 = stAB
    ∧ ReconcileEtcdMembers envAllOk stAB ["a", "b"] =
        (([], none), stAB,
          [Effect.clientAcq ["a"], Effect.listMembers,
           Effect.clientAcq ["b"], Effect.listMembers]) := by
  refine ⟨?_, by decide, by decide, by decide⟩
  intro env st name hlist hlen hacq hmem hnone
  unfold removeMemberForNonExistingNode
  simp [hlist, hlen, hacq, hmem, hnone]

/-- Witness for C7: from the post-removal state, removing `c` again is a
no-op success with no RemoveMember call. -/
theorem C7_witness :
    removeMemberForNonExistingNode envAllOk stAB "c" =
      (none, stAB, [Effect.clientAcq ["a", "b"], Effect.listMembers]) :=
  C7_idempotent_removal.1 envAllOk stAB "c" rfl (by decide) (by decide) (by decide)
    (by decide)

/-- C8: within ReconcileEtcdMembers, a client-acquisition or member-listing
failure for one node is skipped silently (no removed names, no error, state
untouched) and does not prevent processing of the remaining nodes in input
order; the returned error is the aggregate of all per-member removal errors
collected across nodes — nil when there are none, and otherwise a single
composite preserving every individual cause. -/
theorem C8_best_effort_aggregation (env : Env) (st : St) (allNames : List String)
    (n : String) (rest : List String) :
    (env.firstAvailOk [n] = false →
      reconcileEtcdMember env st allNames n = (([], []), st, [Effect.clientAcq [n]]))
    ∧ (env.firstAvailOk [n] = true → env.membersOk [n] = false →
      reconcileEtcdMember env st allNames n =
        (([], []), st, [Effect.clientAcq [n], Effect.listMembers]))
    ∧ ((env.firstAvailOk [n] = false ∨ env.membersOk [n] = false) →
      (reconcileNodesLoop env allNames (n :: rest) st).1 =
        (reconcileNodesLoop env allNames rest st).1
      ∧ (reconcileNodesLoop env allNames (n :: rest) st).2.1 =
          (reconcileNodesLoop env allNames rest st).2.1)
    ∧ (ReconcileEtcdMembers env st allNames).1.2 =
        newAggregate (reconcileNodesLoop env allNames allNames st).1.2
    ∧ ((reconcileNodesLoop env allNames allNames st).1.2 = [] →
        (ReconcileEtcdMembers env st allNames).1.2 = none)
    ∧ (∀ e errs, (reconcileNodesLoop env allNames allNames st).1.2 = errs → e ∈ errs →
        ∃ composite, (ReconcileEtcdMembers env st allNames).1.2 = some composite
          ∧ e ∈ composite) := by
  have hskip : ∀ h : env.firstAvailOk [n] = false,
      reconcileEtcdMember env st allNames n = (([], []), st, [Effect.clientAcq [n]]) := by
    intro h
    unfold reconcileEtcdMember
    simp [h]
  have hskip2 : ∀ (h1 : env.firstAvailOk [n] = true) (h2 : env.membersOk [n] = false),
      reconcileEtcdMember env st allNames n =
        (([], []), st, [Effect.clientAcq [n], Effect.listMembers]) := by
    intro h1 h2
    unfold reconcileEtcdMember
    simp [h1, h2]
  refine ⟨hskip, hskip2, ?_, rfl, ?_, ?_⟩
  · intro h
    have he : reconcileEtcdMember env st allNames n = (([], []), st,
        (if env.firstAvailOk [n] = false then [Effect.clientAcq [n]]
         else [Effect.clientAcq [n], Effect.listMembers])) := by
      rcases h with h | h
      · rw [hskip h]
        simp [h]
      · by_cases h1 : env.firstAvailOk [n] = false
        · rw [hskip h1]
          simp [h1]
        · rw [hskip2 (by revert h1; cases env.firstAvailOk [n] <;> simp) h]
          simp [h1]
    rw [reconcileNodesLoop]
    dsimp only
    rw [he]
    simp
  · intro h
    unfold ReconcileEtcdMembers
    dsimp only
    rw [h]
    rfl
  · intro e errs herrs hmem
    refine ⟨errs, ?_, hmem⟩
    unfold ReconcileEtcdMembers
    dsimp only
    rw [herrs]
    cases errs with
    | nil => exact absurd hmem (List.not_mem_nil e)
    | cons x xs => rfl

/-- Witness for C8: with acquisition failing for node `x`, that node is
skipped silently and the remaining nodes still run. -/
theorem C8_witness :
    reconcileEtcdMember envXFails stABC ["x", "a", "b"] "x" =
      (([], []), stABC, [Effect.clientAcq ["x"]])
    ∧ (reconcileNodesLoop envXFails ["x", "a", "b"] ["x", "a", "b"] stABC).1 =
        (reconcileNodesLoop envXFails ["x", "a", "b"] ["a", "b"] stABC).1 :=
  ⟨(C8_best_effort_aggregation envXFails stABC ["x", "a", "b"] "x" ["a", "b"]).1
      (by decide),
   ((C8_best_effort_aggregation envXFails stABC ["x", "a", "b"] "x" ["a", "b"]).2.2.1
      (Or.inl (by decide))).1⟩

/-- C9: in ForwardEtcdLeadership, when the member for the outgoing
machine's node either is absent from the member listing or has an id
different from the connected client's LeaderID, the call returns nil and
issues no MoveLeader call. -/
theorem C9_nonleader_noop (env : Env) (st : St) (mName cName : String)
    (hlist : env.nodeListOk = true)
    (hacq : env.forLeaderOk (st.nodes.map (fun n => n.name)) = true)
    (hmem : env.membersOk (st.nodes.map (fun n => n.name)) = true)
    (hnl : ∀ cm, MemberForName st.members mName = some cm → cm.id ≠ env.leaderID) :
    ForwardEtcdLeadership env st (some { nodeRef := some mName })
        (some { nodeRef := some cName }) =
      (none, st,
        [Effect.clientAcq (st.nodes.map (fun n => n.name)), Effect.listMembers]) := by
  unfold ForwardEtcdLeadership
  dsimp only
  simp only [hlist, hacq, hmem, Bool.true_eq_false, if_false]
  cases hE : MemberForName st.members mName with
  | none => rfl
  | some cm => simp [hnl cm hE]

/-- Witness for C9: outgoing machine `b` (member id 2) is not the leader
(LeaderID 1), so forwarding is a nil no-op with no MoveLeader call. -/
theorem C9_witness :
    ForwardEtcdLeadership envAllOk stAB (some { nodeRef := some "b" })
        (some { nodeRef := some "a" }) =
      (none, stAB, [Effect.clientAcq ["a", "b"], Effect.listMembers]) :=
  C9_nonleader_noop envAllOk stAB "b" "a" rfl rfl rfl (fun cm h => by
    have h2 : (some (⟨2, "b"⟩ : Member) : Option Member) = some cm := h
    injection h2 with h2
    subst h2
    decide)

/-- C10: ReconcileEtcdMembers appends an orphaned member's name to the
removed-member list before attempting its removal, so when the removal
fails and the orphan stays visible from both reachable nodes of the input,
its name appears once per node in the returned list — here twice — with the
failure cause collected once per attempt. -/
theorem C10_duplicate_removed_names :
    (ReconcileEtcdMembers envRemoveFails stABC ["a", "b"]).1 =
      (["c", "c"], some [Err.memberRemoveFailed 3, Err.memberRemoveFailed 3]) := by
  decide

end ClusterApiK3s
